import Mathlib

set_option maxRecDepth 8000

/-!
Verification development for the silvercoin backend's decision engine
(`backend.py`): the indicator library (`sma`, `ema`, `rsi`, `bollinger`),
the ensemble decision function (`ensemble_decision`), the anti-spam gate
(`should_send_signal`), the per-pair bounded price history
(`deque(maxlen=MAX_HISTORY)`), and the name binding of `COOLDOWN` used by
the emission guard in `bot_loop`.

Prices and confidences are Python floats in the source; they are embedded
as exact rationals (ℚ). The single irrational operation of the source,
`math.sqrt` inside `bollinger`, is handled by returning the (mid, variance)
pair and encoding the band comparisons `last < mid - mult*sqrt(var)` and
`last > mid + mult*sqrt(var)` by exact rational inequalities; the lemmas
`ltLowB_iff_real` and `gtUpB_iff_real` prove the encoding equivalent to the
real-number comparison.
-/

-- ==========================
-- CONFIG constants (backend.py lines 23-29, 268-269)
-- ==========================

def MIN_HISTORY : ℕ := 30

def MAX_HISTORY : ℕ := 600

def CONF_THRESHOLD : ℚ := 2/5

def MIN_CONFIDENCE : ℚ := 13/20

def SIGNAL_COOLDOWN : ℚ := 60

-- ==========================
-- Indicators (backend.py lines 72-111)
-- ==========================

/-- Python slice `a[-period:]`: the last `period` elements; for `period = 0`
the slice `a[-0:] = a[0:]` is the whole list. -/
def pyTail (a : List ℚ) (period : ℕ) : List ℚ :=
  if period = 0 then a else a.drop (a.length - period)

/-- `sma(arr, period)`: `None` if `len(arr) < period`, else
`sum(a[-period:]) / period`. -/
def sma (arr : List ℚ) (period : ℕ) : Option ℚ :=
  if arr.length < period then none
  else some ((pyTail arr period).sum / (period : ℚ))

/-- `ema(arr, period)`: `None` if `len(arr) < period`; else seeded at the
first element of the last `period` values and folded with
`v = x*k + v*(1-k)`, `k = 2/(period+1)`. The `[] => none` arm is the
(unreachable for `1 ≤ period`) case where the slice is empty. -/
def ema (arr : List ℚ) (period : ℕ) : Option ℚ :=
  if arr.length < period then none
  else
    let k : ℚ := 2 / ((period : ℚ) + 1)
    match pyTail arr period with
    | [] => none
    | v0 :: rest => some (rest.foldl (fun v x => x * k + v * (1 - k)) v0)

/-- Differences of consecutive elements: `deltas [a, b, c] = [b - a, c - b]`. -/
def deltas : List ℚ → List ℚ
  | x :: y :: rest => (y - x) :: deltas (y :: rest)
  | _ => []

/-- `rsi(arr, period)`: `None` if `len(arr) < period + 1`. Otherwise the
source iterates `for i in range(-period, 0): diff = a[i] - a[i-1]`, i.e.
the consecutive differences of the last `period + 1` elements, accumulating
positive diffs into `gains` and `-diff` of the rest into `losses`; a zero
side is replaced by `1e-8` (`avg_g = gains / period if gains else 1e-8`),
and the result is `100 - 100 / (1 + rs)` with `rs = avg_g / avg_l`. -/
def rsi (arr : List ℚ) (period : ℕ) : Option ℚ :=
  if arr.length < period + 1 then none
  else
    let a := arr.drop (arr.length - (period + 1))
    let ds := deltas a
    let gains := (ds.filter (fun d => decide (0 < d))).sum
    let losses := -((ds.filter (fun d => !(decide (0 < d)))).sum)
    let avg_g := if gains ≠ 0 then gains / (period : ℚ) else 1/100000000
    let avg_l := if losses ≠ 0 then losses / (period : ℚ) else 1/100000000
    let rs := avg_g / avg_l
    some (100 - 100 / (1 + rs))

/-- `bollinger(arr, period, mult)` computes `mid = sum(a)/period` and the
population variance `var` of the last `period` values, then returns the
triple `(mid - mult*sqrt(var), mid, mid + mult*sqrt(var))`, or
`(None, None, None)` when `len(arr) < period`. The square root is
irrational, so the embedding returns the rational pair `(mid, var)` —
`none` stands for the `(None, None, None)` sentinel — and the band
comparisons are encoded exactly by `ltLowB` / `gtUpB` below. -/
def bollinger (arr : List ℚ) (period : ℕ) : Option (ℚ × ℚ) :=
  if arr.length < period then none
  else
    let a := pyTail arr period
    let mid := a.sum / (period : ℚ)
    let varp := (a.map (fun x => (x - mid) ^ 2)).sum / (period : ℚ)
    some (mid, varp)

/-- Exact rational encoding of `last < mid - mult * sqrt(varp)`
(price strictly below the lower Bollinger band); see `ltLowB_iff_real`. -/
def ltLowB (last mid varp mult : ℚ) : Bool :=
  decide (last < mid) && decide (mult ^ 2 * varp < (mid - last) ^ 2)

/-- Exact rational encoding of `mid + mult * sqrt(varp) < last`
(price strictly above the upper Bollinger band); see `gtUpB_iff_real`. -/
def gtUpB (last mid varp mult : ℚ) : Bool :=
  decide (mid < last) && decide (mult ^ 2 * varp < (last - mid) ^ 2)

lemma ltLowB_iff_real (l m vq mu : ℚ) (hv : 0 ≤ vq) (hmu : 0 ≤ mu) :
    ltLowB l m vq mu = true ↔ (l : ℝ) < (m : ℝ) - (mu : ℝ) * Real.sqrt (vq : ℝ) := by
  have hv' : (0 : ℝ) ≤ (vq : ℝ) := by exact_mod_cast hv
  have hmu' : (0 : ℝ) ≤ (mu : ℝ) := by exact_mod_cast hmu
  have hs : Real.sqrt (vq : ℝ) ^ 2 = (vq : ℝ) := Real.sq_sqrt hv'
  have hsnn : (0 : ℝ) ≤ Real.sqrt (vq : ℝ) := Real.sqrt_nonneg _
  simp only [ltLowB, Bool.and_eq_true, decide_eq_true_eq]
  constructor
  · rintro ⟨h1, h2⟩
    have h1' : (l : ℝ) < (m : ℝ) := by exact_mod_cast h1
    have h2' : ((mu : ℝ)) ^ 2 * (vq : ℝ) < ((m : ℝ) - (l : ℝ)) ^ 2 := by exact_mod_cast h2
    nlinarith [mul_nonneg hmu' hsnn]
  · intro h
    have hlm : (l : ℝ) < (m : ℝ) := by nlinarith [mul_nonneg hmu' hsnn]
    constructor
    · exact_mod_cast hlm
    · have h2' : ((mu : ℝ)) ^ 2 * (vq : ℝ) < ((m : ℝ) - (l : ℝ)) ^ 2 := by
        nlinarith [mul_nonneg hmu' hsnn]
      exact_mod_cast h2'

lemma gtUpB_iff_real (l m vq mu : ℚ) (hv : 0 ≤ vq) (hmu : 0 ≤ mu) :
    gtUpB l m vq mu = true ↔ (m : ℝ) + (mu : ℝ) * Real.sqrt (vq : ℝ) < (l : ℝ) := by
  have hv' : (0 : ℝ) ≤ (vq : ℝ) := by exact_mod_cast hv
  have hmu' : (0 : ℝ) ≤ (mu : ℝ) := by exact_mod_cast hmu
  have hs : Real.sqrt (vq : ℝ) ^ 2 = (vq : ℝ) := Real.sq_sqrt hv'
  have hsnn : (0 : ℝ) ≤ Real.sqrt (vq : ℝ) := Real.sqrt_nonneg _
  simp only [gtUpB, Bool.and_eq_true, decide_eq_true_eq]
  constructor
  · rintro ⟨h1, h2⟩
    have h1' : (m : ℝ) < (l : ℝ) := by exact_mod_cast h1
    have h2' : ((mu : ℝ)) ^ 2 * (vq : ℝ) < ((l : ℝ) - (m : ℝ)) ^ 2 := by exact_mod_cast h2
    nlinarith [mul_nonneg hmu' hsnn]
  · intro h
    have hml : (m : ℝ) < (l : ℝ) := by nlinarith [mul_nonneg hmu' hsnn]
    constructor
    · exact_mod_cast hml
    · have h2' : ((mu : ℝ)) ^ 2 * (vq : ℝ) < ((l : ℝ) - (m : ℝ)) ^ 2 := by
        nlinarith [mul_nonneg hmu' hsnn]
      exact_mod_cast h2'

-- ==========================
-- Ensemble decision (backend.py lines 208-260)
-- ==========================

/-- Python `str.upper()` restricted to ASCII, as applied to the action
strings handled by the backend (character-list form of `String.map`, which
evaluates by kernel reduction). -/
def pyUpper (s : String) : String := String.mk (s.data.map Char.toUpper)

/-- The `if e9 and e21:` block (lines 232-236): Python truthiness skips the
vote when either EMA is `None` or exactly `0.0`; otherwise `e9 > e21` adds
1.2 to the buy votes, else 1.2 to the sell votes. The pair is
(buy contribution, sell contribution). -/
def emaVote (hist : List ℚ) : ℚ × ℚ :=
  match ema hist 9, ema hist 21 with
  | some e9, some e21 =>
      if e9 ≠ 0 ∧ e21 ≠ 0 then (if e21 < e9 then (6/5, 0) else (0, 6/5)) else (0, 0)
  | _, _ => (0, 0)

/-- The `if s3 and s8:` block (lines 237-241), weight 0.6. -/
def smaVote (hist : List ℚ) : ℚ × ℚ :=
  match sma hist 3, sma hist 8 with
  | some s3, some s8 =>
      if s3 ≠ 0 ∧ s8 ≠ 0 then (if s8 < s3 then (3/5, 0) else (0, 3/5)) else (0, 0)
  | _, _ => (0, 0)

/-- The `if r is not None:` block (lines 242-246): 0.9 to buy when
`r < 30`, 0.9 to sell when `r > 70`. -/
def rsiVote (hist : List ℚ) : ℚ × ℚ :=
  match rsi hist 14 with
  | some r => ((if r < 30 then 9/10 else 0), (if 70 < r then 9/10 else 0))
  | none => (0, 0)

/-- The `if low is not None:` block (lines 247-251): 0.7 to buy when
`last < low`, 0.7 to sell when `last > up`, with `last = prices_hist[-1]`
(the list is nonempty whenever this is reached, since the caller has
checked `len >= MIN_HISTORY`); band comparisons via `ltLowB` / `gtUpB`. -/
def bollVote (hist : List ℚ) : ℚ × ℚ :=
  match bollinger hist 20 with
  | some (mid, varp) =>
      let last := hist.getLastD 0
      ((if ltLowB last mid varp 2 then 7/10 else 0),
       (if gtUpB last mid varp 2 then 7/10 else 0))
  | none => (0, 0)

/-- Accumulated `vote_buy` of the no-override path (lines 223-251). -/
def vote_buy (hist : List ℚ) : ℚ :=
  (emaVote hist).1 + (smaVote hist).1 + (rsiVote hist).1 + (bollVote hist).1

/-- Accumulated `vote_sell` of the no-override path (lines 223-251). -/
def vote_sell (hist : List ℚ) : ℚ :=
  (emaVote hist).2 + (smaVote hist).2 + (rsiVote hist).2 + (bollVote hist).2

/-- `ensemble_decision(pair, ext_signal, prices_hist)` (lines 208-260).
`ext` is the external signal: `none` models a missing/empty dict (falsy in
`if ext_signal:`), `some (action, confidence)` a populated one. With an
override present: the action is uppercased, RSI(14) is computed only when
`len(prices_hist) >= 20`, the confidence is halved when the direction
contradicts an extreme RSI, and the action survives iff the resulting
confidence is at least `CONF_THRESHOLD`. Without an override: below
`MIN_HISTORY` the result is `(None, 0.0)`; otherwise the weighted votes are
normalised with the `1e-9` epsilon and a side needs a normalised margin
above 0.25. The `pair` argument is unused, as in the source. -/
def ensemble_decision (pair : String) (ext : Option (String × ℚ)) (hist : List ℚ) :
    Option String × ℚ :=
  match ext with
  | some (rawAction, conf0) =>
      let action := pyUpper rawAction
      let r := if 20 ≤ hist.length then rsi hist 14 else none
      let conf :=
        match r with
        | none => conf0
        | some rv =>
            let c1 := if action = "BUY" ∧ 80 < rv then conf0 * (1/2) else conf0
            if action = "SELL" ∧ rv < 20 then c1 * (1/2) else c1
      ((if CONF_THRESHOLD ≤ conf then some action else none), conf)
  | none =>
      if hist.length < MIN_HISTORY then (none, 0)
      else
        let vb := vote_buy hist
        let vs := vote_sell hist
        let total := vb + vs + 1/1000000000
        let bnorm := vb / total
        let snorm := vs / total
        if (1 : ℚ)/4 < bnorm - snorm then (some "BUY", bnorm)
        else if (1 : ℚ)/4 < snorm - bnorm then (some "SELL", snorm)
        else (none, max bnorm snorm)

-- ==========================
-- MACD (absent from the source; spec section 4.2)
-- ==========================

/-- Modelled from the spec: the repository's source contains no MACD
implementation (the voting path of `ensemble_decision` computes only EMA,
SMA, RSI and Bollinger votes). Spec section 4.2 defines
`macd(series, fast=12, slow=26, signal=9)` with MACD line =
EMA(fast) − EMA(slow) and a signal line that is the EMA(signal) of the
historical MACD-line values "reconstructed by sliding fast/slow simple
averages across the tail of the series". `macd_vals` reconstructs those
`signal` sliding values: the j-th value uses the prefix ending `signal-1-j`
positions before the end. -/
def macd_vals (s : List ℚ) (fast slow signal : ℕ) : List ℚ :=
  (List.range signal).map (fun j =>
    let pre := s.take (s.length - (signal - 1) + j)
    (sma pre fast).getD 0 - (sma pre slow).getD 0)

/-- Modelled from the spec: MACD histogram = MACD line − signal line, with
the signal line the EMA(9) of `macd_vals`; undefined when
`len(series) < slow + signal = 35` (spec section 4.2). -/
def macd_hist (s : List ℚ) : Option ℚ :=
  if s.length < 26 + 9 then none
  else
    let vals := macd_vals s 12 26 9
    let line := vals.getLastD 0
    let sigl := (ema vals 9).getD 0
    some (line - sigl)

-- ==========================
-- Concrete series used by counterexamples and witnesses
-- ==========================

/-- Twenty prices falling from 100 to 81, then fifteen constant at 81
(length 35). -/
def ex1 : List ℚ :=
  [100, 99, 98, 97, 96, 95, 94, 93, 92, 91,
   90, 89, 88, 87, 86, 85, 84, 83, 82, 81,
   81, 81, 81, 81, 81, 81, 81, 81, 81, 81, 81, 81, 81, 81, 81]

/-- Fifteen strictly increasing prices. -/
def ex5 : List ℚ := [1, 2, 3, 4, 5, 6, 7, 8, 9, 10, 11, 12, 13, 14, 15]

/-- Twenty strictly increasing prices. -/
def ex5w : List ℚ :=
  [1, 2, 3, 4, 5, 6, 7, 8, 9, 10, 11, 12, 13, 14, 15, 16, 17, 18, 19, 20]

/-- Thirty prices all equal to zero. -/
def ex6 : List ℚ :=
  [0, 0, 0, 0, 0, 0, 0, 0, 0, 0, 0, 0, 0, 0, 0,
   0, 0, 0, 0, 0, 0, 0, 0, 0, 0, 0, 0, 0, 0, 0]


-- ==========================
-- Anti-spam gate (backend.py lines 265-295)
-- ==========================

/-- Python dict lookup `d[k]` / `k in d`, on an association list. -/
def dictGet {α : Type} : List (String × α) → String → Option α
  | [], _ => none
  | (k2, v2) :: rest, k => if k2 = k then some v2 else dictGet rest k

/-- Python dict assignment `d[k] = v`, on an association list. -/
def dictSet {α : Type} : List (String × α) → String → α → List (String × α)
  | [], k, v => [(k, v)]
  | (k2, v2) :: rest, k, v =>
      if k2 = k then (k, v) :: rest else (k2, v2) :: dictSet rest k v

/-- `should_send_signal(symbol, direction, confidence)` (lines 272-295).
The module-level dicts `LAST_SIGNAL` and `COOLDOWN` are passed and returned
explicitly (`lastSigD`, `cooldownD`); `now` models the internal
`time.time()` call; `direction` is `none` for Python `None`, else the
direction string. A `COOLDOWN[symbol]` access with no entry would raise
`KeyError` in Python, modelled by `Except.error` (unreachable in normal
operation since both dicts are always written together). -/
def should_send_signal (lastSigD : List (String × Option String))
    (cooldownD : List (String × ℚ)) (symbol : String) (direction : Option String)
    (confidence now : ℚ) :
    Except String (Bool × List (String × Option String) × List (String × ℚ)) :=
  if confidence < MIN_CONFIDENCE then .ok (false, lastSigD, cooldownD)
  else
    match dictGet lastSigD symbol with
    | none =>
        .ok (true, dictSet lastSigD symbol direction, dictSet cooldownD symbol now)
    | some prev =>
        match dictGet cooldownD symbol with
        | none => .error "KeyError"
        | some t =>
            if now - t < SIGNAL_COOLDOWN then .ok (false, lastSigD, cooldownD)
            else if prev ≠ direction then
              .ok (true, dictSet lastSigD symbol direction, dictSet cooldownD symbol now)
            else .ok (false, lastSigD, cooldownD)

-- ==========================
-- The COOLDOWN name binding and the bot_loop emission guard
-- (backend.py lines 27, 266, 326-351)
-- ==========================

/-- A Python runtime value, restricted to the shapes that reach the
emission guard of `bot_loop`: `None`, a string, a float, or a dict. -/
inductive PyVal where
  | pyNone : PyVal
  | pyStr : String → PyVal
  | pyNum : ℚ → PyVal
  | pyDict : List (String × ℚ) → PyVal
deriving DecidableEq

/-- Python truthiness for `PyVal` (`if dec and ...`). -/
def pyTruthy : PyVal → Bool
  | .pyNone => false
  | .pyStr s => decide (s ≠ "")
  | .pyNum q => decide (q ≠ 0)
  | .pyDict l => decide (l ≠ [])

/-- Python `a > v` where `a` is a float: defined for a numeric `v`,
`TypeError` otherwise (in Python 3, `float > dict`, `float > str` and
`float > None` all raise TypeError). -/
def pyGtNumVal (a : ℚ) : PyVal → Except String Bool
  | .pyNum b => .ok (decide (b < a))
  | _ => .error "TypeError"

/-- The value bound to the module-level name `COOLDOWN` at line 27. -/
def COOLDOWN_line27 : PyVal := .pyNum 30

/-- The value rebound to the same module-level name `COOLDOWN` at line 266
(the empty dict of the anti-spam section's cooldown timers). -/
def COOLDOWN_line266 : PyVal := .pyDict []

/-- The binding of `COOLDOWN` in effect when `bot_loop` runs: the module
body executes top to bottom, so the line-266 assignment shadows the
line-27 one before any coroutine is scheduled. -/
def COOLDOWN_at_botloop : PyVal := COOLDOWN_line266

/-- The emission guard of `bot_loop` (lines 328 and 341):
`if dec and (dec != last_signal[p] or now - last_signal_time[p] > COOLDOWN)`,
with Python's short-circuit evaluation: the `>` comparison is evaluated
only when `dec` is truthy and `dec == last_signal[p]`. -/
def emitDecision (dec lastSig : PyVal) (now lastT : ℚ) (cool : PyVal) :
    Except String Bool :=
  if pyTruthy dec then
    if dec ≠ lastSig then .ok true
    else pyGtNumVal (now - lastT) cool
  else .ok false

/-- One pair's data as seen by the per-pair loop of `bot_loop`: the pair
name, the freshly computed decision `dec`, the recorded `last_signal[p]`,
the current time and the recorded `last_signal_time[p]`. -/
structure CycleItem where
  pairName : String
  dec : PyVal
  lastSig : PyVal
  now : ℚ
  lastT : ℚ

/-- The per-pair loop of one `bot_loop` cycle, reduced to which pairs emit
a signal: returns the emitted pair names in order, plus the exception (if
any) that aborted the loop — the `try/except` around the cycle body means
an exception skips all remaining pairs of that cycle (the state updates and
sends of already-processed pairs are not rolled back). -/
def cyclePairs : List CycleItem → List String × Option String
  | [] => ([], none)
  | it :: rest =>
      match emitDecision it.dec it.lastSig it.now it.lastT COOLDOWN_at_botloop with
      | .error e => ([], some e)
      | .ok b =>
          let (l, err) := cyclePairs rest
          ((if b then it.pairName :: l else l), err)

-- ==========================
-- Price history: deque(maxlen=MAX_HISTORY) (backend.py lines 25, 32, 307-310)
-- ==========================

/-- `deque(maxlen=cap).append(x)`: append on the right, evicting from the
left when the capacity is exceeded. -/
def dequeAppend (cap : ℕ) (buf : List ℚ) (x : ℚ) : List ℚ :=
  let b := buf ++ [x]
  if cap < b.length then b.drop (b.length - cap) else b

/-- Repeated `history[p].append(float(pr))` over a stream of prices. -/
def dequeExtend (cap : ℕ) (buf : List ℚ) (xs : List ℚ) : List ℚ :=
  xs.foldl (dequeAppend cap) buf

-- ==========================
-- Supporting lemmas
-- ==========================

lemma drop_replicate_q (a : ℚ) : ∀ (m n : ℕ),
    (List.replicate m a).drop n = List.replicate (m - n) a
  | m, 0 => by simp
  | 0, n + 1 => by simp
  | m + 1, n + 1 => by
      simp only [List.replicate_succ, List.drop_succ_cons]
      rw [drop_replicate_q a m n]
      congr 1
      omega

lemma foldl_ema_const (k q : ℚ) : ∀ m,
    (List.replicate m q).foldl (fun v x => x * k + v * (1 - k)) q = q
  | 0 => rfl
  | m + 1 => by
      rw [List.replicate_succ, List.foldl_cons]
      have h : q * k + q * (1 - k) = q := by ring
      rw [h]
      exact foldl_ema_const k q m

-- ==========================
-- Claim theorems
-- ==========================

/-- C7: for every numeric series shorter than the required minimum, each
indicator returns the explicit undefined sentinel and does not raise:
`sma` and `ema` return `None` when `len(series) < period`, `rsi` returns
`None` when `len(series) < period + 1`, and `bollinger` returns the
`(None, None, None)` sentinel (embedded as `none`) when
`len(series) < period`. -/
theorem C7_short_series_sentinels (arr : List ℚ) (period : ℕ) :
    (arr.length < period →
      sma arr period = none ∧ ema arr period = none ∧ bollinger arr period = none)
    ∧ (arr.length < period + 1 → rsi arr period = none) := by
  constructor
  · intro h
    refine ⟨?_, ?_, ?_⟩ <;> simp [sma, ema, bollinger, h]
  · intro h
    simp [rsi, h]

/-- Witness for C7 at the concrete short series `[1, 2]` with period 5. -/
theorem C7_short_series_sentinels_witness :
    sma [1, 2] 5 = none ∧ ema [1, 2] 5 = none ∧ bollinger [1, 2] 5 = none
    ∧ rsi [1, 2] 5 = none := by
  have h := C7_short_series_sentinels [1, 2] 5
  exact ⟨(h.1 (by decide)).1, (h.1 (by decide)).2.1, (h.1 (by decide)).2.2,
    h.2 (by decide)⟩

/-- C10: for every value `v` and period `p ≥ 1`, `sma` and `ema` applied to
a constant series of value `v` of length at least `p` both return exactly
`v`. -/
theorem C10_constant_series (v : ℚ) (p n : ℕ) (hp : 1 ≤ p) (hn : p ≤ n) :
    sma (List.replicate n v) p = some v ∧ ema (List.replicate n v) p = some v := by
  have hlen : (List.replicate n v).length = n := List.length_replicate n v
  have hnotlt : ¬ (List.replicate n v).length < p := by omega
  have hp0 : p ≠ 0 := by omega
  have htail : pyTail (List.replicate n v) p = List.replicate p v := by
    rw [pyTail, if_neg hp0, drop_replicate_q, hlen]
    congr 1
    omega
  have hcast : ((p : ℚ)) ≠ 0 := Nat.cast_ne_zero.mpr hp0
  constructor
  · rw [sma, if_neg hnotlt, htail]
    rw [List.sum_replicate, nsmul_eq_mul, mul_div_cancel_left₀ v hcast]
  · rw [ema, if_neg hnotlt, htail]
    obtain ⟨m, rfl⟩ : ∃ m, p = m + 1 := ⟨p - 1, by omega⟩
    rw [List.replicate_succ]
    simp only []
    rw [foldl_ema_const]

/-- Witness for C10 at `v = 7`, `p = 3`, `n = 5`. -/
theorem C10_constant_series_witness :
    sma (List.replicate 5 7) 3 = some 7 ∧ ema (List.replicate 5 7) 3 = some 7 :=
  C10_constant_series 7 3 5 (by decide) (by decide)

/-- C3: starting with no prior state for the symbol, the gate sequence
BUY at t0 (conf 0.8), BUY at t0+10, SELL at t0+10, SELL at t0+70 (all
conf 0.8) returns True, False, False, True, and the recorded
(direction, timestamp) dictionaries are updated exactly on the two
True-returning calls (the middle two calls leave the state of the first
call unchanged). -/
theorem C3_gate_scenario (sym : String) (t0 : ℚ) :
    should_send_signal [] [] sym (some "BUY") (4/5) t0
      = .ok (true, [(sym, some "BUY")], [(sym, t0)])
    ∧ should_send_signal [(sym, some "BUY")] [(sym, t0)] sym (some "BUY") (4/5) (t0 + 10)
      = .ok (false, [(sym, some "BUY")], [(sym, t0)])
    ∧ should_send_signal [(sym, some "BUY")] [(sym, t0)] sym (some "SELL") (4/5) (t0 + 10)
      = .ok (false, [(sym, some "BUY")], [(sym, t0)])
    ∧ should_send_signal [(sym, some "BUY")] [(sym, t0)] sym (some "SELL") (4/5) (t0 + 70)
      = .ok (true, [(sym, some "SELL")], [(sym, t0 + 70)]) := by
  have h1 : ¬ ((4 : ℚ)/5 < MIN_CONFIDENCE) := by norm_num [MIN_CONFIDENCE]
  have h2 : t0 + 10 - t0 = (10 : ℚ) := by ring
  have h3 : t0 + 70 - t0 = (70 : ℚ) := by ring
  refine ⟨?_, ?_, ?_, ?_⟩ <;>
    simp [should_send_signal, dictGet, dictSet, h1, h2, h3, SIGNAL_COOLDOWN] <;>
    norm_num

/-- C4 counterexample: a NONE-direction call with confidence 0.8 on a
fresh symbol returns True (emit) and records `(None, now)` — the claim
says it must return do-not-emit and leave the state unchanged. -/
theorem C4_counterexample :
    should_send_signal [] [] "EUR/USD" none (4/5) 0
      = .ok (true, [("EUR/USD", none)], [("EUR/USD", 0)]) := by
  norm_num [should_send_signal, dictGet, dictSet, MIN_CONFIDENCE]

/-- C4 (amended): `should_send_signal` gives a NONE direction no special
treatment — with confidence at least MIN_CONFIDENCE and no prior record
for the symbol it emits (returns True) and records direction `None`; a
NONE-direction call is suppressed only by the generic confidence,
cooldown, or unchanged-direction rules. -/
theorem C4_amended_none_emits (lastSigD : List (String × Option String))
    (cooldownD : List (String × ℚ)) (sym : String) (conf now : ℚ)
    (hfresh : dictGet lastSigD sym = none) (hc : MIN_CONFIDENCE ≤ conf) :
    should_send_signal lastSigD cooldownD sym none conf now
      = .ok (true, dictSet lastSigD sym none, dictSet cooldownD sym now) := by
  simp [should_send_signal, not_lt.mpr hc, hfresh]

/-- Witness for C4 (amended) at confidence 1 on an empty gate state. -/
theorem C4_amended_none_emits_witness :
    should_send_signal [] [] "GBP/USD" none 1 0
      = .ok (true, [("GBP/USD", none)], [("GBP/USD", 0)]) := by
  have h := C4_amended_none_emits [] [] "GBP/USD" 1 0 rfl (by norm_num [MIN_CONFIDENCE])
  simpa [dictSet] using h

/-- C2: the name `COOLDOWN` read by the `bot_loop` emission guard is bound
to the empty dict assigned at line 266 (shadowing the numeric
`COOLDOWN = 30` of line 27); consequently, whenever the freshly computed
direction is a (truthy) string equal to the recorded `last_signal[p]`, the
short-circuited guard evaluates `now - last_signal_time[p] > COOLDOWN`,
which raises TypeError (float compared to dict); the exception propagates
to the cycle's blanket handler, so no signal is emitted from that pair on
and all remaining pairs of the cycle are skipped. -/
theorem C2_cooldown_shadowing (d p : String) (hd : d ≠ "") (now lastT : ℚ)
    (rest : List CycleItem) :
    COOLDOWN_at_botloop = PyVal.pyDict []
    ∧ emitDecision (.pyStr d) (.pyStr d) now lastT COOLDOWN_at_botloop
        = .error "TypeError"
    ∧ cyclePairs ({ pairName := p, dec := .pyStr d, lastSig := .pyStr d,
                    now := now, lastT := lastT } :: rest)
        = ([], some "TypeError") := by
  have hguard : emitDecision (.pyStr d) (.pyStr d) now lastT COOLDOWN_at_botloop
      = .error "TypeError" := by
    simp [emitDecision, pyTruthy, hd, pyGtNumVal, COOLDOWN_at_botloop, COOLDOWN_line266]
  refine ⟨rfl, hguard, ?_⟩
  simp [cyclePairs, hguard]

/-- Witness for C2: direction BUY repeated for EUR/USD at time 100 with a
second pair still pending in the cycle. -/
theorem C2_cooldown_shadowing_witness :
    COOLDOWN_at_botloop = PyVal.pyDict []
    ∧ emitDecision (.pyStr "BUY") (.pyStr "BUY") 100 0 COOLDOWN_at_botloop
        = .error "TypeError"
    ∧ cyclePairs ({ pairName := "EUR/USD", dec := .pyStr "BUY",
                    lastSig := .pyStr "BUY", now := 100, lastT := 0 }
        :: [{ pairName := "GBP/USD", dec := .pyStr "SELL",
              lastSig := .pyNone, now := 100, lastT := 0 }])
        = ([], some "TypeError") :=
  C2_cooldown_shadowing "BUY" "EUR/USD" (by decide) 100 0
    [{ pairName := "GBP/USD", dec := .pyStr "SELL",
       lastSig := .pyNone, now := 100, lastT := 0 }]

lemma deltas_length : ∀ l : List ℚ, (deltas l).length = l.length - 1
  | [] => rfl
  | [_] => rfl
  | x :: y :: rest => by
      simp only [deltas, List.length_cons]
      rw [deltas_length (y :: rest)]
      simp

lemma gains_sum_nonneg : ∀ ds : List ℚ, 0 ≤ (ds.filter (fun d => decide (0 < d))).sum
  | [] => le_refl 0
  | x :: rest => by
      by_cases hx : 0 < x
      · simp only [List.filter_cons, hx]
        simp only [decide_True, if_true, List.sum_cons]
        have h := gains_sum_nonneg rest
        linarith
      · simp only [List.filter_cons, hx]
        simp
        exact gains_sum_nonneg rest

lemma losses_sum_nonpos : ∀ ds : List ℚ, (ds.filter (fun d => !(decide (0 < d)))).sum ≤ 0
  | [] => le_refl 0
  | x :: rest => by
      by_cases hx : 0 < x
      · simp only [List.filter_cons, hx]
        simp
        exact losses_sum_nonpos rest
      · simp only [List.filter_cons, hx]
        simp only [decide_False, Bool.not_false, if_true, List.sum_cons]
        have h := losses_sum_nonpos rest
        have hx' : x ≤ 0 := le_of_not_lt hx
        linarith

lemma rsi_formula_bounds (g l : ℚ) (p : ℕ) (hg : 0 ≤ g) (hl : 0 ≤ l)
    (hgp : g ≠ 0 → 1 ≤ p) (hlp : l ≠ 0 → 1 ≤ p) :
    0 < 100 - 100 / (1 + (if g ≠ 0 then g / (p : ℚ) else 1/100000000) /
        (if l ≠ 0 then l / (p : ℚ) else 1/100000000))
    ∧ 100 - 100 / (1 + (if g ≠ 0 then g / (p : ℚ) else 1/100000000) /
        (if l ≠ 0 then l / (p : ℚ) else 1/100000000)) < 100 := by
  have hag : 0 < (if g ≠ 0 then g / (p : ℚ) else 1/100000000) := by
    by_cases hgz : g ≠ 0
    · rw [if_pos hgz]
      have hp : (0 : ℚ) < (p : ℚ) := by
        have := hgp hgz
        exact_mod_cast Nat.cast_pos.mpr (by omega)
      exact div_pos (lt_of_le_of_ne hg (Ne.symm hgz)) hp
    · rw [if_neg hgz]
      norm_num
  have hal : 0 < (if l ≠ 0 then l / (p : ℚ) else 1/100000000) := by
    by_cases hlz : l ≠ 0
    · rw [if_pos hlz]
      have hp : (0 : ℚ) < (p : ℚ) := by
        have := hlp hlz
        exact_mod_cast Nat.cast_pos.mpr (by omega)
      exact div_pos (lt_of_le_of_ne hl (Ne.symm hlz)) hp
    · rw [if_neg hlz]
      norm_num
  set rs := (if g ≠ 0 then g / (p : ℚ) else 1/100000000) /
      (if l ≠ 0 then l / (p : ℚ) else 1/100000000) with hrs
  have hrspos : 0 < rs := div_pos hag hal
  have hden : (0 : ℚ) < 1 + rs := by linarith
  constructor
  · have h1 : 100 / (1 + rs) < 100 := by
      rw [div_lt_iff₀ hden]
      nlinarith
    linarith
  · have h2 : 0 < 100 / (1 + rs) := by positivity
    linarith

/-- C8 counterexample: the strictly increasing window `ex5` (length 15) is
monotonically non-decreasing with a strict increase, yet
`rsi(ex5, 14) = 10^10 / (10^8 + 1)`, which is not exactly 100.0 (the
epsilon substituted for the zero loss side keeps the result strictly below
100). -/
theorem C8_counterexample :
    List.Chain' (· < ·) ex5 ∧ 15 ≤ ex5.length
    ∧ rsi ex5 14 = some (10000000000/100000001)
    ∧ (10000000000/100000001 : ℚ) ≠ 100 := by
  refine ⟨by norm_num [ex5, List.chain'_cons, List.chain'_singleton], by decide, ?_,
    by norm_num⟩
  norm_num [rsi, ex5, deltas]

/-- C8 (amended): `rsi` never returns exactly 100.0 or exactly 0.0: by the
`1e-8` substitution for a zero gain/loss side, every defined result lies
strictly between 0 and 100 (so a monotone window with a strict move lands
just below 100, or just above 0, rather than exactly at the bound); in
particular every defined result lies in [0, 100]. -/
theorem C8_amended_rsi_strict_bounds (arr : List ℚ) (period : ℕ) (v : ℚ)
    (hv : rsi arr period = some v) : 0 < v ∧ v < 100 := by
  by_cases hlen : arr.length < period + 1
  · rw [rsi, if_pos hlen] at hv
    cases hv
  · rw [rsi, if_neg hlen] at hv
    simp only [Option.some.injEq] at hv
    set a := arr.drop (arr.length - (period + 1)) with ha
    set ds := deltas a with hds
    set g := (ds.filter (fun d => decide (0 < d))).sum with hg
    set l := -((ds.filter (fun d => !(decide (0 < d)))).sum) with hl
    have halen : a.length = period + 1 := by
      rw [ha, List.length_drop]
      omega
    have hdslen : ds.length = period := by
      rw [hds, deltas_length, halen]
      omega
    have hper : ∀ q : ℚ, q ≠ 0 →
        (q = g ∨ q = l) → 1 ≤ period := by
      intro q hq hql
      by_contra hp
      have hp0 : period = 0 := by omega
      have hnil : ds = [] := by
        rw [← List.length_eq_zero]
        omega
      rcases hql with h | h <;> rw [h] at hq <;> simp [hg, hl, hnil] at hq
    have hgnn : 0 ≤ g := gains_sum_nonneg ds
    have hlnn : 0 ≤ l := by
      have := losses_sum_nonpos ds
      rw [hl]
      linarith
    have hb := rsi_formula_bounds g l period hgnn hlnn
      (fun hq => hper g hq (Or.inl rfl)) (fun hq => hper l hq (Or.inr rfl))
    rw [← hv]
    exact hb

/-- Witness for C8 (amended) at the ascending window `ex5`. -/
theorem C8_amended_rsi_strict_bounds_witness :
    rsi ex5 14 = some (10000000000/100000001)
    ∧ ((0 : ℚ) < 10000000000/100000001 ∧ (10000000000/100000001 : ℚ) < 100) :=
  ⟨by norm_num [rsi, ex5, deltas],
   C8_amended_rsi_strict_bounds ex5 14 (10000000000/100000001)
     (by norm_num [rsi, ex5, deltas])⟩

/-- C5 counterexample: on the length-15 series `ex5`, RSI(14) is computable
and exceeds 80, yet a BUY hint with confidence 0.8 is not dampened —
`ensemble_decision` computes RSI only when the history has at least 20
entries, so the returned confidence is 0.8, not the halved 0.4 the claim
requires. -/
theorem C5_counterexample :
    ex5.length = 15 ∧ rsi ex5 14 = some (10000000000/100000001)
    ∧ (80 : ℚ) < 10000000000/100000001
    ∧ ensemble_decision "EUR/USD" (some ("BUY", 4/5)) ex5 = (some "BUY", 4/5) := by
  refine ⟨by decide, ?_, by norm_num, ?_⟩
  · norm_num [rsi, ex5, deltas]
  · norm_num [ensemble_decision, ex5, pyUpper, CONF_THRESHOLD]
    all_goals decide

/-- C5 (amended): for every price series of length at least 20 (the code
computes RSI(14) only when `len(prices_hist) >= 20`; for lengths 15-19 RSI
is computable but no dampening occurs), a BUY hint against RSI > 80, or a
SELL hint against RSI < 20, has its confidence halved before the
`CONF_THRESHOLD` comparison; the direction collapses to `None` exactly when
the halved confidence is below the threshold, and the halved confidence is
still reported. -/
theorem C5_amended_dampening (pr : String) (hist : List ℚ) (c rv : ℚ)
    (h20 : 20 ≤ hist.length) (hr : rsi hist 14 = some rv) :
    (80 < rv → ensemble_decision pr (some ("BUY", c)) hist
        = ((if CONF_THRESHOLD ≤ c * (1/2) then some "BUY" else none), c * (1/2)))
    ∧ (rv < 20 → ensemble_decision pr (some ("SELL", c)) hist
        = ((if CONF_THRESHOLD ≤ c * (1/2) then some "SELL" else none), c * (1/2))) := by
  have hup1 : pyUpper "BUY" = "BUY" := by decide
  have hup2 : pyUpper "SELL" = "SELL" := by decide
  have hne1 : (("BUY" : String) = "SELL") ↔ False := iff_false_intro (by decide)
  have hne2 : (("SELL" : String) = "BUY") ↔ False := iff_false_intro (by decide)
  constructor
  · intro h80
    simp only [ensemble_decision, hup1, if_pos h20, hr, hne1]
    simp [h80]
  · intro h20rv
    have hnotlt : ¬ (80 : ℚ) < rv := by linarith
    simp only [ensemble_decision, hup2, if_pos h20, hr, hne2]
    simp [h20rv, hnotlt]

/-- Witness for C5 (amended): BUY hint with confidence 0.8 on the
length-20 ascending series `ex5w` (RSI above 80). -/
theorem C5_amended_dampening_witness :
    ensemble_decision "EUR/USD" (some ("BUY", 4/5)) ex5w
      = ((if CONF_THRESHOLD ≤ (4/5 : ℚ) * (1/2) then some "BUY" else none),
         (4/5 : ℚ) * (1/2)) :=
  (C5_amended_dampening "EUR/USD" ex5w (4/5) (10000000000/100000001)
    (by decide) (by norm_num [rsi, ex5w, deltas])).1 (by norm_num)

/-- C6 counterexample: on the all-zero series `ex6` of length 30, EMA(9),
EMA(21), SMA(3) and SMA(8) are all defined (equal to 0), yet Python
truthiness (`if e9 and e21:`, `if s3 and s8:`) skips both votes: the EMA
comparison contributes 1.2 to neither side and the SMA comparison 0.6 to
neither side, even though neither indicator is undefined from insufficient
history. -/
theorem C6_counterexample :
    30 ≤ ex6.length ∧ ema ex6 9 = some 0 ∧ ema ex6 21 = some 0
    ∧ sma ex6 3 = some 0 ∧ sma ex6 8 = some 0
    ∧ emaVote ex6 = (0, 0) ∧ smaVote ex6 = (0, 0) := by
  refine ⟨by decide, ?_, ?_, ?_, ?_, ?_, ?_⟩ <;>
    norm_num [emaVote, smaVote, ema, sma, pyTail, ex6]

/-- C6 (amended): provided the computed EMA(9) and EMA(21) values are both
nonzero, the EMA comparison contributes its weight 1.2 to exactly one of
buy/sell, and likewise nonzero SMA(3)/SMA(8) contribute 0.6 to exactly one
side; an indicator contributes to neither side when it is undefined from
insufficient history, or when one of its values is exactly 0 and Python
truthiness skips the vote. -/
theorem C6_amended_vote_exclusive (hist : List ℚ) (a b c d : ℚ)
    (h9 : ema hist 9 = some a) (h21 : ema hist 21 = some b) (ha : a ≠ 0) (hb : b ≠ 0)
    (h3 : sma hist 3 = some c) (h8 : sma hist 8 = some d) (hc : c ≠ 0) (hd : d ≠ 0) :
    (emaVote hist = (6/5, 0) ∨ emaVote hist = (0, 6/5))
    ∧ (smaVote hist = (3/5, 0) ∨ smaVote hist = (0, 3/5)) := by
  constructor
  · simp only [emaVote, h9, h21]
    rw [if_pos ⟨ha, hb⟩]
    by_cases hba : b < a
    · rw [if_pos hba]
      exact Or.inl rfl
    · rw [if_neg hba]
      exact Or.inr rfl
  · simp only [smaVote, h3, h8]
    rw [if_pos ⟨hc, hd⟩]
    by_cases hdc : d < c
    · rw [if_pos hdc]
      exact Or.inl rfl
    · rw [if_neg hdc]
      exact Or.inr rfl

/-- Thirty prices all equal to one. -/
def ex6w : List ℚ :=
  [1, 1, 1, 1, 1, 1, 1, 1, 1, 1, 1, 1, 1, 1, 1,
   1, 1, 1, 1, 1, 1, 1, 1, 1, 1, 1, 1, 1, 1, 1]

/-- Witness for C6 (amended) on the all-one series `ex6w`. -/
theorem C6_amended_vote_exclusive_witness :
    (emaVote ex6w = (6/5, 0) ∨ emaVote ex6w = (0, 6/5))
    ∧ (smaVote ex6w = (3/5, 0) ∨ smaVote ex6w = (0, 3/5)) :=
  C6_amended_vote_exclusive ex6w 1 1 1 1
    (by norm_num [ema, pyTail, ex6w]) (by norm_num [ema, pyTail, ex6w])
    (by norm_num) (by norm_num)
    (by norm_num [sma, pyTail, ex6w]) (by norm_num [sma, pyTail, ex6w])
    (by norm_num) (by norm_num)

lemma emaVote_total_le (hist : List ℚ) : (emaVote hist).1 + (emaVote hist).2 ≤ 6/5 := by
  cases h9 : ema hist 9 <;> cases h21 : ema hist 21 <;>
    simp only [emaVote, h9, h21] <;>
    first
    | (split_ifs <;> norm_num)
    | norm_num

lemma smaVote_total_le (hist : List ℚ) : (smaVote hist).1 + (smaVote hist).2 ≤ 3/5 := by
  cases h3 : sma hist 3 <;> cases h8 : sma hist 8 <;>
    simp only [smaVote, h3, h8] <;>
    first
    | (split_ifs <;> norm_num)
    | norm_num

lemma rsiVote_total_le (hist : List ℚ) : (rsiVote hist).1 + (rsiVote hist).2 ≤ 9/10 := by
  cases hr : rsi hist 14 with
  | none =>
      simp only [rsiVote, hr]
      norm_num
  | some r =>
      simp only [rsiVote, hr]
      split_ifs with h1 h2 <;> linarith

lemma bollVote_total_le (hist : List ℚ) : (bollVote hist).1 + (bollVote hist).2 ≤ 7/10 := by
  cases hb : bollinger hist 20 with
  | none =>
      simp only [bollVote, hb]
      norm_num
  | some mv =>
      obtain ⟨mid, varp⟩ := mv
      simp only [bollVote, hb]
      split_ifs with h1 h2
      · exfalso
        simp only [ltLowB, Bool.and_eq_true, decide_eq_true_eq] at h1
        simp only [gtUpB, Bool.and_eq_true, decide_eq_true_eq] at h2
        linarith [h1.1, h2.1]
      · norm_num
      · norm_num
      · norm_num

/-- C1 counterexample: on the length-35 series `ex1` (well above
MIN_HISTORY = 30), the spec-modelled MACD histogram is positive
(23379994/15234375 > 0), yet the voting path accumulates zero buy votes —
no 0.8 MACD weight (nor any MACD vote at all) enters `buyVotes`. -/
theorem C1_counterexample :
    MIN_HISTORY ≤ ex1.length ∧ macd_hist ex1 = some (23379994/15234375)
    ∧ (0 : ℚ) < 23379994/15234375 ∧ vote_buy ex1 = 0 := by
  refine ⟨by decide, ?_, by norm_num, ?_⟩
  · norm_num [macd_hist, macd_vals, ex1, sma, ema, pyTail, List.range_succ]
  · norm_num [vote_buy, emaVote, smaVote, rsiVote, bollVote, ema, sma, rsi, bollinger,
      ltLowB, gtUpB, pyTail, deltas, ex1, List.getLastD]

/-- C1 (amended): the no-override voting path of `ensemble_decision`
contains no MACD vote: the accumulated buy and sell weights come only from
the EMA (1.2), SMA (0.6), RSI (0.9) and Bollinger (0.7) contributions, so
their total never exceeds 1.2 + 0.6 + 0.9 + 0.7 = 3.4 — there is no 0.8
MACD-histogram weight on either side (the source contains no MACD
computation at all). -/
theorem C1_amended_no_macd_weight (hist : List ℚ) :
    vote_buy hist + vote_sell hist ≤ 17/5 := by
  have h1 := emaVote_total_le hist
  have h2 := smaVote_total_le hist
  have h3 := rsiVote_total_le hist
  have h4 := bollVote_total_le hist
  rw [vote_buy, vote_sell]
  linarith

lemma dequeAppend_eq (cap : ℕ) (buf : List ℚ) (x : ℚ) :
    dequeAppend cap buf x = (buf ++ [x]).drop (buf.length + 1 - cap) := by
  rw [dequeAppend]
  by_cases h : cap < (buf ++ [x]).length
  · rw [if_pos h]
    congr 1
    simp only [List.length_append, List.length_cons, List.length_nil]
  · rw [if_neg h]
    simp only [List.length_append, List.length_cons, List.length_nil, not_lt] at h
    have h0 : buf.length + 1 - cap = 0 := by omega
    rw [h0, List.drop_zero]

lemma dequeAppend_length_le (cap : ℕ) (buf : List ℚ) (x : ℚ)
    (hb : buf.length ≤ cap) : (dequeAppend cap buf x).length ≤ cap := by
  rw [dequeAppend_eq, List.length_drop]
  simp only [List.length_append, List.length_cons, List.length_nil]
  omega

lemma dequeExtend_eq : ∀ (xs buf : List ℚ) (cap : ℕ), buf.length ≤ cap →
    dequeExtend cap buf xs = (buf ++ xs).drop (buf.length + xs.length - cap)
  | [], buf, cap, hb => by
      simp only [dequeExtend, List.foldl_nil, List.append_nil, List.length_nil]
      have h0 : buf.length + 0 - cap = 0 := by omega
      rw [h0, List.drop_zero]
  | x :: xs, buf, cap, hb => by
      have hstep : dequeExtend cap buf (x :: xs)
          = dequeExtend cap (dequeAppend cap buf x) xs := by
        simp [dequeExtend]
      have hd : buf.length + 1 - cap ≤ (buf ++ [x]).length := by
        simp only [List.length_append, List.length_cons, List.length_nil]
        omega
      rw [hstep, dequeExtend_eq xs (dequeAppend cap buf x) cap
        (dequeAppend_length_le cap buf x hb), dequeAppend_eq]
      rw [List.length_drop, ← List.drop_append_of_le_length hd, List.drop_drop]
      have hassoc : buf ++ [x] ++ xs = buf ++ x :: xs := by
        rw [List.append_assoc, List.singleton_append]
      rw [hassoc]
      congr 1
      simp only [List.length_append, List.length_cons, List.length_nil]
      omega

/-- C9: the per-symbol price history deque never exceeds MAX_HISTORY = 600:
for every stream of more than 600 appended prices, the resulting buffer has
length exactly 600 and equals the last 600 appended values in append
order. -/
theorem C9_history_capacity (xs : List ℚ) (h : MAX_HISTORY < xs.length) :
    (dequeExtend MAX_HISTORY [] xs).length = MAX_HISTORY
    ∧ dequeExtend MAX_HISTORY [] xs = xs.drop (xs.length - MAX_HISTORY) := by
  have he := dequeExtend_eq xs [] MAX_HISTORY (by simp)
  simp only [List.nil_append, List.length_nil, Nat.zero_add] at he
  constructor
  · rw [he, List.length_drop]
    omega
  · exact he

/-- Witness for C9: 601 zero prices appended into the capacity-600 deque. -/
theorem C9_history_capacity_witness :
    (dequeExtend MAX_HISTORY [] (List.replicate 601 0)).length = MAX_HISTORY
    ∧ dequeExtend MAX_HISTORY [] (List.replicate 601 0)
      = (List.replicate 601 (0 : ℚ)).drop ((List.replicate 601 (0 : ℚ)).length - MAX_HISTORY) :=
  C9_history_capacity (List.replicate 601 0)
    (by simp [MAX_HISTORY])
